import Mathlib

/-!
Shallow embedding of the `lastpass` credential helper
(package lastpass, file lastpass_linux.go): an `lpass`-backed secret
store.  Secrets are stored in the "Docker Credentials" folder as
individual entries containing a URL, a user and a password.

The subprocess boundary is embedded as an explicit environment
(`World.exec`), and the process-wide mutable state (the
lpassInitialized flag) together with the list of subprocess
invocations made so far is threaded as an explicit `PState`.
-/

/-- Go strings.TrimRight(s, "\n"): removes every trailing newline
character from the string. -/
def trimRightNewlines (s : String) : String :=
  ⟨(s.data.reverse.dropWhile (fun c => c = '\n')).reverse⟩

/-- Helper for bufio Reader.ReadString: the characters up to and
including the first newline, or all of them when no newline occurs. -/
def readLineAux : List Char → List Char
  | [] => []
  | c :: cs => if c = '\n' then [c] else c :: readLineAux cs

/-- Go bufio Reader.ReadString applied to a fixed standard-input text:
returns the line read, delimiter included, and an error flag that is
true exactly when the delimiter was never found before the end of the
input. -/
def readStringNewline (s : String) : String × Bool :=
  (⟨readLineAux s.data⟩, !(s.data.contains '\n'))

/-- Split a character list at every occurrence of the separator.
Mirrors Go strings.Split with a one-character separator: the result
always has one more segment than there are separators, and splitting
the empty list yields the single empty segment. -/
def splitOnChar (sep : Char) : List Char → List (List Char)
  | [] => [[]]
  | c :: cs =>
    if c = sep then [] :: splitOnChar sep cs
    else
      match splitOnChar sep cs with
      | [] => [[c]]
      | g :: gs => (c :: g) :: gs

/-- Go strings.Split(s, "\n"). -/
def goSplitNewline (s : String) : List String :=
  (splitOnChar '\n' s.data).map (fun l => ⟨l⟩)

/-- Element processing for Go path.Clean: a ".." element cancels the
preceding element, leading ".." elements are kept when the path is not
rooted. The accumulator holds the processed elements in reverse
order. -/
def cleanElems (rooted : Bool) : List (List Char) → List (List Char) → List (List Char)
  | [], acc => acc
  | e :: rest, acc =>
    if e = ['.', '.'] then
      match acc with
      | [] => if rooted then cleanElems rooted rest [] else cleanElems rooted rest [e]
      | a :: acc2 =>
        if a = ['.', '.'] then cleanElems rooted rest (e :: a :: acc2)
        else cleanElems rooted rest acc2
    else cleanElems rooted rest (e :: acc)

/-- Interleave the path elements with slashes again. -/
def joinSlash : List (List Char) → List Char
  | [] => []
  | [e] => e
  | e :: rest => e ++ '/' :: joinSlash rest

/-- Go path.Clean: drop empty and "." elements, resolve ".." against
the preceding element, keep leading ".." elements of a relative path,
and return "." when everything cancels. -/
def pathClean (p : String) : String :=
  if p.data = [] then "."
  else
    let rooted : Bool := p.data.head? == some '/'
    let elems := (splitOnChar '/' p.data).filter (fun e => !(e == []) && !(e == ['.']))
    let joined := joinSlash (cleanElems rooted elems []).reverse
    if joined = [] then (if rooted then "/" else ".")
    else if rooted then ⟨'/' :: joined⟩ else ⟨joined⟩

/-- Go path.Join on two elements: drop empty elements, join the
remaining ones with a slash and Clean the result; the empty string when
both elements are empty. -/
def pathJoin2 (a b : String) : String :=
  if a.data = [] && b.data = [] then ""
  else if a.data = [] then pathClean b
  else if b.data = [] then pathClean a
  else pathClean ⟨a.data ++ '/' :: b.data⟩

/-- LASTPASS_FOLDER is the folder at the root of the LastPass account
containing all the credentials managed by this app. -/
def LASTPASS_FOLDER : String := "Docker Credentials"

/-- The part of a Go net/url URL value the helper consumes: the scheme
and the hostname, the latter already stripped of port and ipv6
brackets as URL.Hostname() would return it. -/
structure GoURL where
  scheme : String
  hostname : String
deriving DecidableEq

/-- Character allowed in a URL scheme after the first position. -/
def isSchemeChar (c : Char) : Bool :=
  c.isAlpha || c.isDigit || c == '+' || c == '-' || c == '.'

/-- Mirrors getScheme of Go net/url: scan for a scheme followed by a
colon; a malformed leading segment means the URL has no scheme and is
used whole; a colon in first position is an error. The first component
of the result is the scheme, the second the remainder after the
colon. -/
def getSchemeAux (seen : List Char) : List Char → Except String (List Char × List Char)
  | [] => Except.ok ([], seen.reverse)
  | c :: rest =>
    if c = ':' then
      if seen.isEmpty then Except.error "missing protocol scheme"
      else Except.ok (seen.reverse, rest)
    else if (if seen.isEmpty then c.isAlpha else isSchemeChar c) then
      getSchemeAux (c :: seen) rest
    else Except.ok ([], seen.reverse ++ c :: rest)

/-- Go net/url validOptionalPort: empty, or a colon followed by
decimal digits only. -/
def validOptionalPort : List Char → Bool
  | [] => true
  | c :: rest => c == ':' && rest.all (fun d => d.isDigit)

/-- Modelled fragment of the Go host-character validation (shouldEscape
with the encodeHost table): letters, digits and the unreserved or
sub-delimiter characters are accepted. Percent-escapes and the
apostrophe character, both accepted by Go, are out of scope of this
fragment and rejected, which only narrows the set of URLs the model
accepts. -/
def hostCharsOK (l : List Char) : Bool :=
  l.all (fun c =>
    c.isAlpha || c.isDigit || "-._~!$&()*+,;=:[]<>\"".data.contains c)

/-- The authority with any userinfo removed: the part after the last
"@" character (Go parseAuthority; userinfo validation is out of scope
of this fragment). -/
def afterLastAt (l : List Char) : List Char :=
  if l.contains '@' then (l.reverse.takeWhile (fun c => !(c == '@'))).reverse
  else l

/-- Modelled from Go parseHost combined with URL.Hostname(): validates
the host and optional port of the authority and returns the host with
the port and any ipv6 brackets stripped. Error texts are
abbreviated. -/
def parseHostname (l : List Char) : Except String (List Char) :=
  match l with
  | '[' :: rest =>
    if rest.contains ']' then
      let afterBracket := (rest.reverse.takeWhile (fun c => !(c == ']'))).reverse
      let inside := ((rest.reverse.dropWhile (fun c => !(c == ']'))).drop 1).reverse
      if validOptionalPort afterBracket then
        if hostCharsOK inside then Except.ok inside
        else Except.error "invalid character in host name"
      else Except.error "invalid port after host"
    else Except.error "missing right bracket in host"
  | _ =>
    if l.contains ':' then
      let beforeColon := ((l.reverse.dropWhile (fun c => !(c == ':'))).drop 1).reverse
      let portPart := ':' :: (l.reverse.takeWhile (fun c => !(c == ':'))).reverse
      if validOptionalPort portPart then
        if hostCharsOK beforeColon then Except.ok beforeColon
        else Except.error "invalid character in host name"
      else Except.error "invalid port after host"
    else
      if hostCharsOK l then Except.ok l
      else Except.error "invalid character in host name"

/-- Modelled fragment of Go net/url Parse restricted to what
URL.Hostname() needs: control characters are rejected, the scheme is
split off, and when the remainder starts with a double slash the
authority up to the next delimiter is parsed into a hostname;
otherwise the URL has no host. Query, fragment and path are ignored
beyond delimiting the authority. -/
def url_Parse (rawURL : String) : Except String GoURL :=
  if rawURL.data.any (fun c => c.val < 32 || c.val == 127) then
    Except.error "invalid control character in URL"
  else
    match getSchemeAux [] rawURL.data with
    | Except.error e => Except.error e
    | Except.ok (scheme, rest) =>
      match rest with
      | '/' :: '/' :: afterSlashes =>
        let authority := afterSlashes.takeWhile
          (fun c => !(c == '/') && !(c == '?') && !(c == '#'))
        match parseHostname (afterLastAt authority) with
        | Except.error e => Except.error e
        | Except.ok host => Except.ok ⟨⟨scheme⟩, ⟨host⟩⟩
      | _ => Except.ok (⟨⟨scheme⟩, ""⟩ : GoURL)

/-- domainInURL (lastpass_linux.go): url.Parse followed by
url.Hostname() — the host component of the server URL, or the parse
error. -/
def domainInURL (serverURL : String) : Except String String :=
  match url_Parse serverURL with
  | Except.error err => Except.error err
  | Except.ok u => Except.ok u.hostname

/-- Result of running the external lpass subprocess once: either it
exits zero with its captured standard output, or it fails (non-zero
exit or spawn failure) with the Go error text and the captured
standard error. -/
inductive RunResult where
  | success (stdout : String)
  | failure (errText : String) (stderrText : String)
deriving DecidableEq

/-- One invocation of the external lpass binary: the text piped to its
standard input and the argument vector after the program name. -/
structure Invocation where
  stdinContent : String
  args : List String
deriving DecidableEq

/-- The environment a run takes place in: exec gives the result of an
lpass invocation, possibly depending on the invocations made so far,
and stdinInput is the text available on the standard input of the
helper process itself (read by the interactive login prompt). -/
structure World where
  exec : List Invocation → Invocation → RunResult
  stdinInput : String

/-- Mutable process state of the helper: the process-wide
lpassInitialized flag and the list of subprocess invocations made so
far (the trace). -/
structure PState where
  lpassInitialized : Bool
  trace : List Invocation
deriving DecidableEq

/-- runLastPassHelper: run lpass with the given stdin text and
arguments. On success it returns the captured stdout with trailing
newlines trimmed (lpass includes a newline at the end of its output);
on failure it returns the empty string and a single message holding
the error and the captured stderr. The invocation is appended to the
trace. -/
def runLastPassHelper (w : World) (st : PState) (stdinContent : String) (args : List String) :
    (String × Option String) × PState :=
  let inv : Invocation := ⟨stdinContent, args⟩
  let st2 : PState := ⟨st.lpassInitialized, st.trace ++ [inv]⟩
  match w.exec st.trace inv with
  | RunResult.failure e stderrText => (("", some (e ++ ": " ++ stderrText)), st2)
  | RunResult.success stdout => ((trimRightNewlines stdout, none), st2)

/-- The status probe invocation: lpass status --quiet. -/
def statusInv : Invocation := ⟨"", ["status", "--quiet"]⟩

/-- The interactive login invocation: lpass login with the username
read from standard input. -/
def loginInv (u : String) : Invocation := ⟨"", ["login", u]⟩

/-- The error message produced when the interactive login subcommand
exits non-zero. -/
def loginFailMsg (u : String) : String :=
  "Failed to log into `lpass`; try running `lpass login " ++ u ++ "` yourself."

/-- Tail of checkInitialized: rerun the status probe; on failure wrap
its error into the not-initialized message; on success set the
lpassInitialized flag. -/
def checkInitFinish (w : World) (st : PState) : Option String × PState :=
  match runLastPassHelper w st "" ["status", "--quiet"] with
  | ((_, none), st3) => (none, ⟨true, st3.trace⟩)
  | ((_, some e), st3) => (some ("lpass not initialized: " ++ e), st3)

/-- checkInitialized (lastpass_linux.go): under the initialization
mutex — modelled as sequential state passing — return immediately when
the flag is already set; otherwise probe lpass status, on probe failure
prompt for a username on standard input (the read error is discarded)
and run the interactive login, failing with loginFailMsg when the login
exits non-zero; finally rerun the probe and set the flag on its
success. -/
def checkInitialized (w : World) (st : PState) : Option String × PState :=
  if st.lpassInitialized then (none, st)
  else
    match runLastPassHelper w st "" ["status", "--quiet"] with
    | ((_, none), st1) => checkInitFinish w st1
    | ((_, some _), st1) =>
      let lpassUsername := (readStringNewline w.stdinInput).1
      let st2 : PState := ⟨st1.lpassInitialized, st1.trace ++ [loginInv lpassUsername]⟩
      match w.exec st1.trace (loginInv lpassUsername) with
      | RunResult.failure _ _ => (some (loginFailMsg lpassUsername), st2)
      | RunResult.success _ => checkInitFinish w st2

/-- LastPass.runLastPass: ensure initialization, then run the helper;
an initialization error aborts without running the requested
invocation. -/
def LastPass.runLastPass (w : World) (st : PState) (stdinContent : String) (args : List String) :
    (String × Option String) × PState :=
  match checkInitialized w st with
  | (some e, st1) => (("", some e), st1)
  | (none, st1) => runLastPassHelper w st1 stdinContent args

/-- LastPass.Get: returns the username and secret for a given registry
server URL, via two show invocations against the derived entry path. -/
def LastPass.Get (w : World) (st : PState) (serverURL : String) :
    (String × String × Option String) × PState :=
  if serverURL = "" then (("", "", some "missing server url"), st)
  else
    match domainInURL serverURL with
    | Except.error e => (("", "", some e), st)
    | Except.ok domain =>
      match LastPass.runLastPass w st "" ["show", "--user", pathJoin2 LASTPASS_FOLDER domain] with
      | ((_, some e), st1) => (("", "", some e), st1)
      | ((username, none), st1) =>
        match LastPass.runLastPass w st1 "" ["show", "--pass", pathJoin2 LASTPASS_FOLDER domain] with
        | ((_, some e), st2) => (("", "", some e), st2)
        | ((secret, none), st2) => ((username, secret, none), st2)

/-- The credentials record handed to Add (docker credential-helpers
credentials.Credentials). -/
structure Credentials where
  ServerURL : String
  Username : String
  Secret : String
deriving DecidableEq

/-- LastPass.Add: adds new credentials to the store. A nil credential
reference is rejected up front. The three-line field block is piped to
lpass; a preliminary Get chooses between the edit and add
invocations. -/
def LastPass.Add (w : World) (st : PState) (creds : Option Credentials) :
    Option String × PState :=
  match creds with
  | none => (some "missing credentials", st)
  | some c =>
    match domainInURL c.ServerURL with
    | Except.error e => (some e, st)
    | Except.ok domain =>
      let details :=
        "URL: " ++ c.ServerURL ++ "\nUsername: " ++ c.Username ++
        "\nPassword: " ++ c.Secret ++ "\n"
      match LastPass.Get w st c.ServerURL with
      | ((_, _, some _), st1) =>
        match LastPass.runLastPass w st1 details
            ["edit", "--non-interactive", pathJoin2 LASTPASS_FOLDER domain] with
        | ((_, err), st2) => (err, st2)
      | ((_, _, none), st1) =>
        match LastPass.runLastPass w st1 details
            ["add", "--non-interactive", pathJoin2 LASTPASS_FOLDER domain] with
        | ((_, err), st2) => (err, st2)

/-- LastPass.Delete: removes credentials from the store with a single
rm invocation against the derived entry path. -/
def LastPass.Delete (w : World) (st : PState) (serverURL : String) :
    Option String × PState :=
  if serverURL = "" then (some "missing server url", st)
  else
    match domainInURL serverURL with
    | Except.error e => (some e, st)
    | Except.ok domain =>
      match LastPass.runLastPass w st "" ["rm", pathJoin2 LASTPASS_FOLDER domain] with
      | ((_, err), st1) => (err, st1)

/-- A Go map from string to string, as its lookup function. -/
def GoMap : Type := String → Option String

/-- The empty Go map literal. -/
def mapEmpty : GoMap := fun _ => none

/-- Go map assignment m[k] = v: later assignments to the same key
overwrite earlier ones. -/
def mapInsert (m : GoMap) (k v : String) : GoMap :=
  fun x => if x = k then some v else m x

/-- The per-entry loop of LastPass.List: for each entry identifier in
order, a show --url invocation then a show --user invocation; any
failure aborts the whole loop with that error and no mapping; on
success the pair url ↦ username is inserted into the mapping. -/
def listLoop (w : World) : PState → List String → GoMap → (Option GoMap × Option String) × PState
  | st, [], resp => ((some resp, none), st)
  | st, entry :: rest, resp =>
    let entryID := entry
    match LastPass.runLastPass w st "" ["show", "--url", entryID] with
    | ((_, some e), st1) => ((none, some e), st1)
    | ((serverURL, none), st1) =>
      match LastPass.runLastPass w st1 "" ["show", "--user", entryID] with
      | ((_, some e), st2) => ((none, some e), st2)
      | ((username, none), st2) =>
        listLoop w st2 rest (mapInsert resp serverURL username)

/-- LastPass.List: returns the stored URLs and corresponding usernames.
One ls invocation lists the entry identifiers of the namespace, one
per output line; the loop then resolves each identifier. -/
def LastPass.List (w : World) (st : PState) : (Option GoMap × Option String) × PState :=
  match LastPass.runLastPass w st "" ["ls", "--format", "%ai", LASTPASS_FOLDER] with
  | ((_, some e), st1) => ((none, some e), st1)
  | ((output, none), st1) =>
    let entries := goSplitNewline output
    listLoop w st1 entries mapEmpty

/-- Environment in which every lpass invocation succeeds with a fixed
output (in particular the preliminary Get of Add finds an entry). -/
def wEntryExists : World := ⟨fun _ _ => RunResult.success "x", ""⟩

/-- Environment in which show invocations fail (no stored entry) and
everything else succeeds. -/
def wEntryMissing : World :=
  ⟨fun _ inv =>
    match inv.args with
    | "show" :: _ =>
      RunResult.failure "exit status 1" "Error: Could not find specified account(s)."
    | _ => RunResult.success "", ""⟩

/-- Example credential used by concrete evaluations. -/
def credExample : Credentials := ⟨"https://example.com", "alice", "s3cr3t"⟩

/-- The field block Add pipes to lpass for credExample. -/
def detailsExample : String :=
  "URL: https://example.com\nUsername: alice\nPassword: s3cr3t\n"

/-- Environment in which every invocation succeeds with output ending
in two newline characters. -/
def wTwoNewlines : World := ⟨fun _ _ => RunResult.success "a\n\n", ""⟩

/-- Environment in which every invocation fails; standard input holds
one username line. -/
def wAllFail : World := ⟨fun _ _ => RunResult.failure "exit status 1" "boom", "alice\n"⟩

/-- Invocation results for a listing of two entries that resolve to
the same URL with different usernames. -/
def listSameExec : List String → RunResult
  | ["status", "--quiet"] => RunResult.success ""
  | ["ls", "--format", "%ai", "Docker Credentials"] => RunResult.success "id1\nid2\n"
  | ["show", "--url", "id1"] => RunResult.success "https://same.com\n"
  | ["show", "--user", "id1"] => RunResult.success "alice\n"
  | ["show", "--url", "id2"] => RunResult.success "https://same.com\n"
  | ["show", "--user", "id2"] => RunResult.success "bob\n"
  | _ => RunResult.failure "exit status 1" "boom"

/-- Environment for the duplicate-URL listing. -/
def wListSame : World := ⟨fun _ inv => listSameExec inv.args, ""⟩

/-- Invocation results for a listing whose second entry cannot be
resolved. -/
def listFailExec : List String → RunResult
  | ["ls", "--format", "%ai", "Docker Credentials"] => RunResult.success "id1\nid2\n"
  | ["show", "--url", "id1"] => RunResult.success "https://a.com\n"
  | ["show", "--user", "id1"] => RunResult.success "alice\n"
  | _ => RunResult.failure "exit status 1" "boom"

/-- Environment for the failing listing. -/
def wListFail : World := ⟨fun _ inv => listFailExec inv.args, ""⟩

/-- Invocation results for a listing of an empty namespace: the ls
invocation succeeds with empty output, everything else fails. -/
def emptyLsExec : List String → RunResult
  | ["ls", "--format", "%ai", "Docker Credentials"] => RunResult.success ""
  | _ => RunResult.failure "exit status 1" "boom"

/-- Environment for the empty listing. -/
def wEmptyLs : World := ⟨fun _ inv => emptyLsExec inv.args, ""⟩

/-! ### Helper lemmas about the process runner -/

theorem runHelper_success (w : World) (st : PState) (sc out : String) (args : List String)
    (h : w.exec st.trace ⟨sc, args⟩ = RunResult.success out) :
    runLastPassHelper w st sc args =
      ((trimRightNewlines out, none), ⟨st.lpassInitialized, st.trace ++ [⟨sc, args⟩]⟩) := by
  simp [runLastPassHelper, h]

theorem runHelper_failure (w : World) (st : PState) (sc e s : String) (args : List String)
    (h : w.exec st.trace ⟨sc, args⟩ = RunResult.failure e s) :
    runLastPassHelper w st sc args =
      (("", some (e ++ ": " ++ s)), ⟨st.lpassInitialized, st.trace ++ [⟨sc, args⟩]⟩) := by
  simp [runLastPassHelper, h]

theorem checkInit_of_flag {w : World} {st : PState} (h : st.lpassInitialized = true) :
    checkInitialized w st = (none, st) := by
  simp [checkInitialized, h]

theorem runLastPass_of_flag {w : World} {st : PState} {sc : String} {args : List String}
    (h : st.lpassInitialized = true) :
    LastPass.runLastPass w st sc args = runLastPassHelper w st sc args := by
  simp [LastPass.runLastPass, checkInit_of_flag h]

/-- Claim C2: Get and Delete called with the empty server URL, and Add
called with a nil credential reference, each return the corresponding
invalid-argument error and leave the state (hence the invocation
trace) untouched, so no subprocess invocation is made before
returning. -/
theorem C2_invalid_arguments_no_subprocess (w : World) (st : PState) :
    LastPass.Get w st "" = (("", "", some "missing server url"), st) ∧
    LastPass.Delete w st "" = (some "missing server url", st) ∧
    LastPass.Add w st none = (some "missing credentials", st) :=
  ⟨rfl, rfl, rfl⟩

/-- Claim C6: a subprocess invocation that exits non-zero or fails to
spawn makes the process runner return the empty output string together
with a single error message concatenating the underlying error and the
captured standard-error text. -/
theorem C6_runner_failure_combined_message (w : World) (st : PState)
    (stdinContent e s : String) (args : List String)
    (h : w.exec st.trace ⟨stdinContent, args⟩ = RunResult.failure e s) :
    runLastPassHelper w st stdinContent args =
      (("", some (e ++ ": " ++ s)),
       ⟨st.lpassInitialized, st.trace ++ [⟨stdinContent, args⟩]⟩) := by
  simp [runLastPassHelper, h]

theorem C6_witness :
    wAllFail.exec (PState.mk false []).trace ⟨"", ["show"]⟩ =
      RunResult.failure "exit status 1" "boom" ∧
    runLastPassHelper wAllFail ⟨false, []⟩ "" ["show"] =
      (("", some "exit status 1: boom"), ⟨false, [⟨"", ["show"]⟩]⟩) := by
  refine ⟨rfl, ?_⟩
  rw [C6_runner_failure_combined_message wAllFail ⟨false, []⟩ "" "exit status 1" "boom" ["show"] rfl]
  rfl

/-! ### Trailing-newline trimming -/

theorem replicate_dropWhile (p : Char → Bool) (a : Char)
    (hq : ∀ c, p c = true → c = a) :
    ∀ l : List Char, ∃ k, l = List.replicate k a ++ l.dropWhile p := by
  intro l
  induction l with
  | nil => exact ⟨0, rfl⟩
  | cons c cs ih =>
    by_cases hc : p c
    · obtain ⟨k, hk⟩ := ih
      refine ⟨k + 1, ?_⟩
      rw [List.dropWhile_cons_of_pos hc]
      have hca : c = a := hq c hc
      subst hca
      calc c :: cs = c :: (List.replicate k c ++ cs.dropWhile p) := by rw [← hk]
        _ = List.replicate (k + 1) c ++ cs.dropWhile p := rfl
    · refine ⟨0, ?_⟩
      rw [List.dropWhile_cons_of_neg hc]
      rfl

theorem head_dropWhile_ne (p : Char → Bool) (a : Char) (hp : p a = true) :
    ∀ l : List Char, (l.dropWhile p).head? ≠ some a := by
  intro l
  induction l with
  | nil => simp [List.dropWhile]
  | cons c cs ih =>
    by_cases hc : p c
    · rw [List.dropWhile_cons_of_pos hc]; exact ih
    · rw [List.dropWhile_cons_of_neg hc]
      intro h
      simp at h
      subst h
      exact hc hp

/-- trimRightNewlines removes exactly the maximal run of trailing
newline characters: the original output is the trimmed result followed
by some number of newlines, and the trimmed result does not end in a
newline. -/
theorem trimRightNewlines_spec (s : String) :
    ∃ k, s.data = (trimRightNewlines s).data ++ List.replicate k '\n' ∧
      (trimRightNewlines s).data.getLast? ≠ some '\n' := by
  obtain ⟨k, hk⟩ := replicate_dropWhile (fun c => decide (c = '\n')) '\n'
    (fun c hc => by simpa using hc) s.data.reverse
  refine ⟨k, ?_, ?_⟩
  · have hdata : (trimRightNewlines s).data =
        (s.data.reverse.dropWhile (fun c => decide (c = '\n'))).reverse := rfl
    rw [hdata]
    conv_lhs => rw [← s.data.reverse_reverse, hk]
    rw [List.reverse_append, List.reverse_replicate]
  · have hdata : (trimRightNewlines s).data =
        (s.data.reverse.dropWhile (fun c => decide (c = '\n'))).reverse := rfl
    rw [hdata, List.getLast?_reverse]
    exact head_dropWhile_ne (fun c => decide (c = '\n')) '\n' (by simp) s.data.reverse

/-- Counterexample to claim C3: when the subprocess output ends in two
newline characters the runner strips both of them, not exactly one —
the returned string is "a", not "a" followed by one newline. -/
theorem C3_counterexample_two_trailing_newlines :
    (runLastPassHelper wTwoNewlines ⟨false, []⟩ "" ["show"]).1.1 = "a" ∧
    (runLastPassHelper wTwoNewlines ⟨false, []⟩ "" ["show"]).1.1 ≠ "a\n" :=
  ⟨rfl, by decide⟩

/-- Claim C3 amended: for every successful subprocess invocation the
process runner returns the captured standard output with the whole
maximal run of trailing newline characters stripped — one terminator
when there is one, but all of them when the output ends in several:
the result never ends in a newline and the original output is the
result followed by some number of newlines. -/
theorem C3_amended_all_trailing_newlines_stripped (w : World) (st : PState)
    (stdinContent out : String) (args : List String)
    (h : w.exec st.trace ⟨stdinContent, args⟩ = RunResult.success out) :
    (runLastPassHelper w st stdinContent args).1 = (trimRightNewlines out, none) ∧
    ∃ k, out.data = (trimRightNewlines out).data ++ List.replicate k '\n' ∧
      (trimRightNewlines out).data.getLast? ≠ some '\n' :=
  ⟨by simp [runLastPassHelper, h], trimRightNewlines_spec out⟩

theorem C3_amended_witness :
    wTwoNewlines.exec (PState.mk false []).trace ⟨"", ["show"]⟩ =
      RunResult.success "a\n\n" ∧
    ((runLastPassHelper wTwoNewlines ⟨false, []⟩ "" ["show"]).1 =
        (trimRightNewlines "a\n\n", none) ∧
      ∃ k, ("a\n\n" : String).data =
          (trimRightNewlines "a\n\n").data ++ List.replicate k '\n' ∧
        (trimRightNewlines "a\n\n").data.getLast? ≠ some '\n') :=
  ⟨rfl, C3_amended_all_trailing_newlines_stripped wTwoNewlines ⟨false, []⟩ "" "a\n\n" ["show"] rfl⟩

/-- Claim C1 evaluated on the code: Add runs its preliminary Get and
then takes the branches the wrong way round — in an environment where
the Get succeeds (the entry exists) the add (create) invocation is
issued, and in an environment where the Get fails the edit
(replace-in-place) invocation is issued, the reverse of the claimed
(and commented) upsert policy. -/
theorem C1_add_upsert_branches_inverted :
    ((LastPass.Get wEntryExists ⟨false, []⟩ "https://example.com").1.2.2 = none ∧
      (LastPass.Add wEntryExists ⟨false, []⟩ (some credExample)).2.trace =
        [statusInv, statusInv,
         ⟨"", ["show", "--user", "Docker Credentials/example.com"]⟩,
         ⟨"", ["show", "--pass", "Docker Credentials/example.com"]⟩,
         ⟨detailsExample, ["add", "--non-interactive", "Docker Credentials/example.com"]⟩]) ∧
    ((LastPass.Get wEntryMissing ⟨false, []⟩ "https://example.com").1.2.2 =
        some "exit status 1: Error: Could not find specified account(s)." ∧
      (LastPass.Add wEntryMissing ⟨false, []⟩ (some credExample)).2.trace =
        [statusInv, statusInv,
         ⟨"", ["show", "--user", "Docker Credentials/example.com"]⟩,
         ⟨detailsExample, ["edit", "--non-interactive", "Docker Credentials/example.com"]⟩]) :=
  ⟨⟨rfl, rfl⟩, ⟨rfl, rfl⟩⟩

/-! ### Entry identifier derivation -/

theorem splitOnChar_not_mem {sep : Char} {b : List Char} (hb : sep ∉ b) :
    splitOnChar sep b = [b] := by
  induction b with
  | nil => rfl
  | cons c cs ih =>
    have hc : ¬ c = sep := fun h => hb (h ▸ List.mem_cons_self c cs)
    have hcs : sep ∉ cs := fun h => hb (List.mem_cons_of_mem c h)
    rw [splitOnChar, if_neg hc, ih hcs]

theorem splitOnChar_append {sep : Char} (b : List Char) {a : List Char} (ha : sep ∉ a) :
    splitOnChar sep (a ++ sep :: b) = a :: splitOnChar sep b := by
  induction a with
  | nil => simp [splitOnChar]
  | cons c cs ih =>
    have hc : ¬ c = sep := fun h => ha (h ▸ List.mem_cons_self c cs)
    have hcs : sep ∉ cs := fun h => ha (List.mem_cons_of_mem c h)
    rw [List.cons_append, splitOnChar, if_neg hc, ih hcs]

/-- pathClean leaves a two-element relative path alone when neither
element is empty, a dot, a double dot, or holds a slash. -/
theorem pathClean_two_plain (a b : List Char)
    (ha0 : a ≠ []) (ha1 : a ≠ ['.']) (ha2 : a ≠ ['.', '.']) (ha3 : '/' ∉ a)
    (hb0 : b ≠ []) (hb1 : b ≠ ['.']) (hb2 : b ≠ ['.', '.']) (hb3 : '/' ∉ b) :
    pathClean ⟨a ++ '/' :: b⟩ = ⟨a ++ '/' :: b⟩ := by
  obtain ⟨x, xs, hx⟩ := List.exists_cons_of_ne_nil ha0
  subst hx
  have hxslash : ¬ x = '/' := fun h => ha3 (h ▸ List.mem_cons_self x xs)
  have hsplit : splitOnChar '/' ((x :: xs) ++ '/' :: b) =
      (x :: xs) :: splitOnChar '/' b := splitOnChar_append b ha3
  have hone : splitOnChar '/' b = [b] := splitOnChar_not_mem hb3
  unfold pathClean
  simp only [hsplit, hone]
  rw [if_neg (by simp)]
  simp only [List.cons_append, List.head?_cons]
  have hrooted : ((some x == some '/') : Bool) = false := by
    simp [hxslash]
  have hfa : (!((x :: xs) == ([] : List Char)) && !((x :: xs) == ['.'])) = true := by
    have h1 : ((x :: xs) == ([] : List Char)) = false := by simp
    have h2 : ((x :: xs) == (['.'] : List Char)) = false := beq_eq_false_iff_ne.mpr ha1
    simp [h1, h2]
  have hfb : (!(b == ([] : List Char)) && !(b == ['.'])) = true := by
    have h1 : (b == ([] : List Char)) = false := beq_eq_false_iff_ne.mpr hb0
    have h2 : (b == (['.'] : List Char)) = false := beq_eq_false_iff_ne.mpr hb1
    simp [h1, h2]
  simp only [hrooted, List.filter_cons, hfa, hfb, if_true, List.filter_nil]
  simp only [cleanElems, if_neg ha2, if_neg hb2, List.reverse_cons, List.reverse_nil,
    List.nil_append, List.cons_append, joinSlash]
  rw [if_neg (by simp), if_neg (by simp)]

/-- Joining the namespace folder with a plain host is plain string
concatenation with a slash in between. -/
theorem pathJoin2_folder_plain (h : String)
    (h0 : h.data ≠ []) (h1 : h.data ≠ ['.']) (h2 : h.data ≠ ['.', '.'])
    (h3 : '/' ∉ h.data) :
    pathJoin2 LASTPASS_FOLDER h = ⟨LASTPASS_FOLDER.data ++ '/' :: h.data⟩ := by
  unfold pathJoin2
  rw [if_neg (by simp; intro hc; exact absurd hc (by decide)), if_neg (by decide), if_neg h0]
  exact pathClean_two_plain LASTPASS_FOLDER.data h.data
    (by decide) (by decide) (by decide) (by decide) h0 h1 h2 h3

/-- Counterexample to claim C4: the URLs "http://" and "http://." both
parse, their host components "" and "." differ, yet both derive the
same entry identifier "Docker Credentials", because Go path joining
cleans away an empty or dot path element. -/
theorem C4_counterexample_host_collision :
    domainInURL "http://" = Except.ok "" ∧
    domainInURL "http://." = Except.ok "." ∧
    ("" : String) ≠ "." ∧
    pathJoin2 LASTPASS_FOLDER "" = "Docker Credentials" ∧
    pathJoin2 LASTPASS_FOLDER "." = "Docker Credentials" :=
  ⟨rfl, rfl, by decide, rfl, rfl⟩

/-- Claim C4 amended: for URLs that parse successfully, equal hosts
give equal derived entry identifiers; hosts that differ give different
identifiers provided neither host is empty, a dot, a double dot, or
holds a slash (degenerate hosts such as "" and "." collide after path
cleaning); and a serverURL whose parsing fails makes identifier
derivation return the error rather than any identifier. -/
theorem C4_amended_identifier_derivation (u1 u2 h1 h2 : String)
    (p1 : domainInURL u1 = Except.ok h1) (p2 : domainInURL u2 = Except.ok h2) :
    (h1 = h2 → pathJoin2 LASTPASS_FOLDER h1 = pathJoin2 LASTPASS_FOLDER h2) ∧
    (h1.data ≠ [] → h1.data ≠ ['.'] → h1.data ≠ ['.', '.'] → '/' ∉ h1.data →
      h2.data ≠ [] → h2.data ≠ ['.'] → h2.data ≠ ['.', '.'] → '/' ∉ h2.data →
      h1 ≠ h2 → pathJoin2 LASTPASS_FOLDER h1 ≠ pathJoin2 LASTPASS_FOLDER h2) ∧
    (∀ u e, url_Parse u = Except.error e → domainInURL u = Except.error e) := by
  refine ⟨fun hh => by rw [hh], ?_, ?_⟩
  · intro a0 a1 a2 a3 b0 b1 b2 b3 hne heq
    rw [pathJoin2_folder_plain h1 a0 a1 a2 a3, pathJoin2_folder_plain h2 b0 b1 b2 b3] at heq
    apply hne
    have hdata : LASTPASS_FOLDER.data ++ '/' :: h1.data =
        LASTPASS_FOLDER.data ++ '/' :: h2.data := congrArg String.data heq
    have hcons := List.append_cancel_left hdata
    have hd : h1.data = h2.data := by injection hcons
    cases h1
    cases h2
    exact congrArg String.mk hd
  · intro u e hu
    simp [domainInURL, hu]

theorem C4_amended_witness :
    domainInURL "https://a.com" = Except.ok "a.com" ∧
    domainInURL "https://b.com" = Except.ok "b.com" ∧
    pathJoin2 LASTPASS_FOLDER "a.com" ≠ pathJoin2 LASTPASS_FOLDER "b.com" ∧
    domainInURL "http://a:b/" = Except.error "invalid port after host" := by
  refine ⟨rfl, rfl, ?_, ?_⟩
  · exact (C4_amended_identifier_derivation "https://a.com" "https://b.com" "a.com" "b.com"
      rfl rfl).2.1 (by decide) (by decide) (by decide) (by decide)
      (by decide) (by decide) (by decide) (by decide) (by decide)
  · exact (C4_amended_identifier_derivation "https://a.com" "https://b.com" "a.com" "b.com"
      rfl rfl).2.2 "http://a:b/" "invalid port after host" rfl

/-! ### Session guard step equations -/

theorem checkInitFinish_success (w : World) (st : PState) (out : String)
    (h : w.exec st.trace statusInv = RunResult.success out) :
    checkInitFinish w st = (none, ⟨true, st.trace ++ [statusInv]⟩) := by
  have h2 : w.exec st.trace ⟨"", ["status", "--quiet"]⟩ = RunResult.success out := h
  simp [checkInitFinish, runLastPassHelper, h2, statusInv]

theorem checkInitFinish_failure (w : World) (st : PState) (e s : String)
    (h : w.exec st.trace statusInv = RunResult.failure e s) :
    checkInitFinish w st =
      (some ("lpass not initialized: " ++ (e ++ ": " ++ s)),
       ⟨st.lpassInitialized, st.trace ++ [statusInv]⟩) := by
  have h2 : w.exec st.trace ⟨"", ["status", "--quiet"]⟩ = RunResult.failure e s := h
  simp [checkInitFinish, runLastPassHelper, h2, statusInv]

theorem checkInit_probe1_success (w : World) (st : PState) (out : String)
    (hf : st.lpassInitialized = false)
    (h : w.exec st.trace statusInv = RunResult.success out) :
    checkInitialized w st = checkInitFinish w ⟨false, st.trace ++ [statusInv]⟩ := by
  have h2 : w.exec st.trace ⟨"", ["status", "--quiet"]⟩ = RunResult.success out := h
  simp [checkInitialized, runLastPassHelper, h2, hf, statusInv]

theorem checkInit_login_failure (w : World) (st : PState) (e s e2 s2 : String)
    (hf : st.lpassInitialized = false)
    (h : w.exec st.trace statusInv = RunResult.failure e s)
    (hl : w.exec (st.trace ++ [statusInv]) (loginInv (readStringNewline w.stdinInput).1)
        = RunResult.failure e2 s2) :
    checkInitialized w st =
      (some (loginFailMsg (readStringNewline w.stdinInput).1),
       ⟨false, st.trace ++ [statusInv, loginInv (readStringNewline w.stdinInput).1]⟩) := by
  have h2 : w.exec st.trace ⟨"", ["status", "--quiet"]⟩ = RunResult.failure e s := h
  have hl2 : w.exec (st.trace ++ [⟨"", ["status", "--quiet"]⟩])
      (loginInv (readStringNewline w.stdinInput).1) = RunResult.failure e2 s2 := hl
  simp [checkInitialized, runLastPassHelper, h2, hl2, hf, statusInv]

theorem checkInit_login_success (w : World) (st : PState) (e s out2 : String)
    (hf : st.lpassInitialized = false)
    (h : w.exec st.trace statusInv = RunResult.failure e s)
    (hl : w.exec (st.trace ++ [statusInv]) (loginInv (readStringNewline w.stdinInput).1)
        = RunResult.success out2) :
    checkInitialized w st =
      checkInitFinish w ⟨false, st.trace ++ [statusInv, loginInv (readStringNewline w.stdinInput).1]⟩ := by
  have h2 : w.exec st.trace ⟨"", ["status", "--quiet"]⟩ = RunResult.failure e s := h
  have hl2 : w.exec (st.trace ++ [⟨"", ["status", "--quiet"]⟩])
      (loginInv (readStringNewline w.stdinInput).1) = RunResult.success out2 := hl
  simp [checkInitialized, runLastPassHelper, h2, hl2, hf, statusInv]

/-- Claim C5: the session flag is set to true only after a status
probe succeeds (first conjunct after the fast path: a run that ends
with the flag true either started with it true or ends in a trace
whose last invocation is a successful status probe, with the check
returning success); once true, the check returns success immediately
with the state — hence the trace — unchanged, and in particular the
flag is never reset; and when the interactive login subcommand exits
non-zero the check returns the login-failure error naming the
attempted username while the flag remains false. -/
theorem C5_session_flag_lifecycle (w : World) (st : PState) :
    (st.lpassInitialized = true → checkInitialized w st = (none, st)) ∧
    ((checkInitialized w st).2.lpassInitialized = true →
      st.lpassInitialized = true ∨
      ∃ pre out, (checkInitialized w st).2.trace = pre ++ [statusInv] ∧
        w.exec pre statusInv = RunResult.success out ∧
        (checkInitialized w st).1 = none) ∧
    (∀ e s e2 s2,
      st.lpassInitialized = false →
      w.exec st.trace statusInv = RunResult.failure e s →
      w.exec (st.trace ++ [statusInv])
        (loginInv (readStringNewline w.stdinInput).1) = RunResult.failure e2 s2 →
      checkInitialized w st =
        (some (loginFailMsg (readStringNewline w.stdinInput).1),
         ⟨false, st.trace ++ [statusInv, loginInv (readStringNewline w.stdinInput).1]⟩)) ∧
    (∀ u : String, ∃ a b : String, loginFailMsg u = a ++ u ++ b) := by
  refine ⟨fun hf => checkInit_of_flag hf, ?_, ?_, ?_⟩
  · by_cases hf : st.lpassInitialized = true
    · intro _; exact Or.inl hf
    · intro hset
      right
      rw [Bool.not_eq_true] at hf
      cases hw1 : w.exec st.trace statusInv with
      | success out1 =>
        rw [checkInit_probe1_success w st out1 hf hw1] at hset ⊢
        cases hw3 : w.exec (st.trace ++ [statusInv]) statusInv with
        | success out3 =>
          rw [checkInitFinish_success w ⟨false, st.trace ++ [statusInv]⟩ out3 hw3] at hset ⊢
          exact ⟨st.trace ++ [statusInv], out3, rfl, hw3, rfl⟩
        | failure e3 s3 =>
          rw [checkInitFinish_failure w ⟨false, st.trace ++ [statusInv]⟩ e3 s3 hw3] at hset
          simp at hset
      | failure e1 s1 =>
        cases hw2 : w.exec (st.trace ++ [statusInv])
            (loginInv (readStringNewline w.stdinInput).1) with
        | failure e2 s2 =>
          rw [checkInit_login_failure w st e1 s1 e2 s2 hf hw1 hw2] at hset
          simp at hset
        | success out2 =>
          rw [checkInit_login_success w st e1 s1 out2 hf hw1 hw2] at hset ⊢
          cases hw3 : w.exec (st.trace ++ [statusInv, loginInv (readStringNewline w.stdinInput).1])
              statusInv with
          | success out3 =>
            rw [checkInitFinish_success w
              ⟨false, st.trace ++ [statusInv, loginInv (readStringNewline w.stdinInput).1]⟩
              out3 hw3] at hset ⊢
            exact ⟨st.trace ++ [statusInv, loginInv (readStringNewline w.stdinInput).1],
              out3, rfl, hw3, rfl⟩
          | failure e3 s3 =>
            rw [checkInitFinish_failure w
              ⟨false, st.trace ++ [statusInv, loginInv (readStringNewline w.stdinInput).1]⟩
              e3 s3 hw3] at hset
            simp at hset
  · intro e s e2 s2 hf hw1 hw2
    exact checkInit_login_failure w st e s e2 s2 hf hw1 hw2
  · intro u
    exact ⟨"Failed to log into `lpass`; try running `lpass login ", "` yourself.", rfl⟩

theorem C5_witness :
    (⟨false, []⟩ : PState).lpassInitialized = false ∧
    wAllFail.exec (⟨false, []⟩ : PState).trace statusInv =
      RunResult.failure "exit status 1" "boom" ∧
    checkInitialized wAllFail ⟨false, []⟩ =
      (some (loginFailMsg "alice\n"), ⟨false, [statusInv, loginInv "alice\n"]⟩) := by
  refine ⟨rfl, rfl, ?_⟩
  exact (C5_session_flag_lifecycle wAllFail ⟨false, []⟩).2.2.1 "exit status 1" "boom"
    "exit status 1" "boom" rfl rfl rfl

/-! ### The interactive login prompt -/

theorem readLineAux_append (a b : List Char) (ha : '\n' ∉ a) :
    readLineAux (a ++ '\n' :: b) = a ++ ['\n'] := by
  induction a with
  | nil => simp [readLineAux]
  | cons c cs ih =>
    have hc : ¬ c = '\n' := fun h => ha (h ▸ List.mem_cons_self c cs)
    have hcs : '\n' ∉ cs := fun h => ha (List.mem_cons_of_mem c h)
    simp [readLineAux, hc, ih hcs]

theorem readLineAux_no_newline (l : List Char) (h : '\n' ∉ l) :
    readLineAux l = l := by
  induction l with
  | nil => rfl
  | cons c cs ih =>
    have hc : ¬ c = '\n' := fun hx => h (hx ▸ List.mem_cons_self c cs)
    have hcs : '\n' ∉ cs := fun hx => h (List.mem_cons_of_mem c hx)
    simp [readLineAux, hc, ih hcs]

/-- Claim C9: when the first status probe fails, the login invocation
receives exactly the raw line read from standard input — the line
including its trailing newline character when one was read (second
conjunct), or the whole partial input with the read error ignored when
no newline is present (third conjunct). -/
theorem C9_login_passes_raw_line (w : World) (st : PState) (e s : String)
    (hf : st.lpassInitialized = false)
    (h : w.exec st.trace statusInv = RunResult.failure e s) :
    (∃ restT, (checkInitialized w st).2.trace =
      st.trace ++ [statusInv, loginInv (readStringNewline w.stdinInput).1] ++ restT) ∧
    (∀ a b : String, '\n' ∉ a.data →
      readStringNewline (a ++ "\n" ++ b) = (a ++ "\n", false)) ∧
    (∀ t : String, '\n' ∉ t.data → readStringNewline t = (t, true)) := by
  refine ⟨?_, ?_, ?_⟩
  · cases hw2 : w.exec (st.trace ++ [statusInv])
        (loginInv (readStringNewline w.stdinInput).1) with
    | failure e2 s2 =>
      rw [checkInit_login_failure w st e s e2 s2 hf h hw2]
      exact ⟨[], by simp⟩
    | success out2 =>
      rw [checkInit_login_success w st e s out2 hf h hw2]
      cases hw3 : w.exec (st.trace ++ [statusInv, loginInv (readStringNewline w.stdinInput).1])
          statusInv with
      | success out3 =>
        rw [checkInitFinish_success w
          ⟨false, st.trace ++ [statusInv, loginInv (readStringNewline w.stdinInput).1]⟩ out3 hw3]
        exact ⟨[statusInv], by simp⟩
      | failure e3 s3 =>
        rw [checkInitFinish_failure w
          ⟨false, st.trace ++ [statusInv, loginInv (readStringNewline w.stdinInput).1]⟩ e3 s3 hw3]
        exact ⟨[statusInv], by simp⟩
  · intro a b ha
    unfold readStringNewline
    have hdata : (a ++ "\n" ++ b).data = a.data ++ '\n' :: b.data := by
      rw [String.data_append, String.data_append]
      simp
    rw [hdata, Prod.mk.injEq]
    refine ⟨?_, ?_⟩
    · rw [readLineAux_append a.data b.data ha]
      show (⟨a.data ++ ['\n']⟩ : String) = a ++ "\n"
      rw [← String.data_append]
    · simp [List.contains]
  · intro t ht
    unfold readStringNewline
    rw [Prod.mk.injEq]
    refine ⟨?_, ?_⟩
    · rw [readLineAux_no_newline t.data ht]
    · simp [List.contains]
      exact ht

theorem C9_witness :
    wAllFail.exec (⟨false, []⟩ : PState).trace statusInv =
      RunResult.failure "exit status 1" "boom" ∧
    (∃ restT, (checkInitialized wAllFail ⟨false, []⟩).2.trace =
      [statusInv, loginInv "alice\n"] ++ restT) ∧
    readStringNewline "alice\n" = ("alice\n", false) := by
  refine ⟨rfl, ?_, ?_⟩
  · exact (C9_login_passes_raw_line wAllFail ⟨false, []⟩ "exit status 1" "boom" rfl rfl).1
  · exact (C9_login_passes_raw_line wAllFail ⟨false, []⟩ "exit status 1" "boom" rfl rfl).2.1
      "alice" "" (by decide)

/-! ### Listing -/


theorem runLP_flag_success (w : World) (st : PState) (sc out : String) (args : List String)
    (hf : st.lpassInitialized = true)
    (h : w.exec st.trace ⟨sc, args⟩ = RunResult.success out) :
    LastPass.runLastPass w st sc args =
      ((trimRightNewlines out, none), ⟨true, st.trace ++ [⟨sc, args⟩]⟩) := by
  rw [runLastPass_of_flag hf, runHelper_success w st sc out args h, hf]

theorem runLP_flag_failure (w : World) (st : PState) (sc e s : String) (args : List String)
    (hf : st.lpassInitialized = true)
    (h : w.exec st.trace ⟨sc, args⟩ = RunResult.failure e s) :
    LastPass.runLastPass w st sc args =
      (("", some (e ++ ": " ++ s)), ⟨true, st.trace ++ [⟨sc, args⟩]⟩) := by
  rw [runLastPass_of_flag hf, runHelper_failure w st sc e s args h, hf]

theorem listLoop_cons_urlerr (w : World) (st st1 : PState) (entry v1 e1 : String)
    (rest : List String) (resp : GoMap)
    (h : LastPass.runLastPass w st "" ["show", "--url", entry] = ((v1, some e1), st1)) :
    listLoop w st (entry :: rest) resp = ((none, some e1), st1) := by
  simp [listLoop, h]

theorem listLoop_cons_usererr (w : World) (st st1 st2 : PState) (entry v1 v2 e2 : String)
    (rest : List String) (resp : GoMap)
    (h1 : LastPass.runLastPass w st "" ["show", "--url", entry] = ((v1, none), st1))
    (h2 : LastPass.runLastPass w st1 "" ["show", "--user", entry] = ((v2, some e2), st2)) :
    listLoop w st (entry :: rest) resp = ((none, some e2), st2) := by
  simp [listLoop, h1, h2]

theorem listLoop_cons_ok (w : World) (st st1 st2 : PState) (entry v1 v2 : String)
    (rest : List String) (resp : GoMap)
    (h1 : LastPass.runLastPass w st "" ["show", "--url", entry] = ((v1, none), st1))
    (h2 : LastPass.runLastPass w st1 "" ["show", "--user", entry] = ((v2, none), st2)) :
    listLoop w st (entry :: rest) resp = listLoop w st2 rest (mapInsert resp v1 v2) := by
  simp [listLoop, h1, h2]

theorem listLoop_no_partial (w : World) :
    ∀ (entries : List String) (st : PState) (resp : GoMap) (e : String),
      (listLoop w st entries resp).1.2 = some e →
      (listLoop w st entries resp).1.1 = none := by
  intro entries
  induction entries with
  | nil =>
    intro st resp e h
    simp [listLoop] at h
  | cons entry rest ih =>
    intro st resp e h
    rcases hr1 : LastPass.runLastPass w st "" ["show", "--url", entry] with ⟨⟨v1, err1⟩, st1⟩
    cases err1 with
    | some e1 =>
      rw [listLoop_cons_urlerr w st st1 entry v1 e1 rest resp hr1]
    | none =>
      rcases hr2 : LastPass.runLastPass w st1 "" ["show", "--user", entry] with ⟨⟨v2, err2⟩, st2⟩
      cases err2 with
      | some e2 =>
        rw [listLoop_cons_usererr w st st1 st2 entry v1 v2 e2 rest resp hr1 hr2]
      | none =>
        rw [listLoop_cons_ok w st st1 st2 entry v1 v2 rest resp hr1 hr2] at h ⊢
        exact ih st2 (mapInsert resp v1 v2) e h

theorem List_ls_err (w : World) (st st1 : PState) (out err : String)
    (h : LastPass.runLastPass w st "" ["ls", "--format", "%ai", LASTPASS_FOLDER] =
      ((out, some err), st1)) :
    LastPass.List w st = ((none, some err), st1) := by
  simp [LastPass.List, h]

theorem List_ls_ok (w : World) (st st1 : PState) (out : String)
    (h : LastPass.runLastPass w st "" ["ls", "--format", "%ai", LASTPASS_FOLDER] =
      ((out, none), st1)) :
    LastPass.List w st = listLoop w st1 (goSplitNewline out) mapEmpty := by
  simp [LastPass.List, h]

/-- Claim C7: if any per-entry show invocation (URL field or username
field) fails during a listing run, List returns that combined error
together with a nil mapping — the first conjunct shows no partial
mapping is ever returned alongside an error, the other two show the
loop aborts with exactly the failing invocation error for a URL-field
and a username-field failure respectively. -/
theorem C7_list_fail_fast (w : World) (st : PState) :
    (∀ e, (LastPass.List w st).1.2 = some e → (LastPass.List w st).1.1 = none) ∧
    (∀ entry rest resp e s, st.lpassInitialized = true →
      w.exec st.trace ⟨"", ["show", "--url", entry]⟩ = RunResult.failure e s →
      listLoop w st (entry :: rest) resp =
        ((none, some (e ++ ": " ++ s)),
         ⟨true, st.trace ++ [⟨"", ["show", "--url", entry]⟩]⟩)) ∧
    (∀ entry rest resp u1 e s, st.lpassInitialized = true →
      w.exec st.trace ⟨"", ["show", "--url", entry]⟩ = RunResult.success u1 →
      w.exec (st.trace ++ [⟨"", ["show", "--url", entry]⟩])
        ⟨"", ["show", "--user", entry]⟩ = RunResult.failure e s →
      listLoop w st (entry :: rest) resp =
        ((none, some (e ++ ": " ++ s)),
         ⟨true, st.trace ++ [⟨"", ["show", "--url", entry]⟩, ⟨"", ["show", "--user", entry]⟩]⟩)) := by
  refine ⟨?_, ?_, ?_⟩
  · intro e h
    rcases hr : LastPass.runLastPass w st "" ["ls", "--format", "%ai", LASTPASS_FOLDER]
      with ⟨⟨out, err⟩, st1⟩
    cases err with
    | some e0 => rw [List_ls_err w st st1 out e0 hr]
    | none =>
      rw [List_ls_ok w st st1 out hr] at h ⊢
      exact listLoop_no_partial w (goSplitNewline out) st1 mapEmpty e h
  · intro entry rest resp e s hf hw
    exact listLoop_cons_urlerr w st ⟨true, st.trace ++ [⟨"", ["show", "--url", entry]⟩]⟩
      entry "" (e ++ ": " ++ s) rest resp
      (runLP_flag_failure w st "" e s ["show", "--url", entry] hf hw)
  · intro entry rest resp u1 e s hf hw1 hw2
    have h1 := runLP_flag_success w st "" u1 ["show", "--url", entry] hf hw1
    have h2 := runLP_flag_failure w ⟨true, st.trace ++ [⟨"", ["show", "--url", entry]⟩]⟩ "" e s
      ["show", "--user", entry] rfl hw2
    rw [listLoop_cons_usererr w st ⟨true, st.trace ++ [⟨"", ["show", "--url", entry]⟩]⟩
      ⟨true, (st.trace ++ [⟨"", ["show", "--url", entry]⟩]) ++ [⟨"", ["show", "--user", entry]⟩]⟩
      entry (trimRightNewlines u1) "" (e ++ ": " ++ s) rest resp h1 h2]
    simp

theorem C7_witness :
    (LastPass.List wListFail ⟨true, []⟩).1.2 = some "exit status 1: boom" ∧
    (LastPass.List wListFail ⟨true, []⟩).1.1 = none := by
  refine ⟨rfl, ?_⟩
  exact (C7_list_fail_fast wListFail ⟨true, []⟩).1 "exit status 1: boom" rfl

/-- Claim C8: on a successfully resolved entry the loop issues the
show url invocation first and the show user invocation second (visible
in the trace of the continuation state), inserts the pair url mapped
to username into the result mapping, and map insertion is
last-write-wins: inserting twice under the same key keeps only the
second value. -/
theorem C8_list_inserts_url_username (w : World) (st : PState) (entry : String)
    (rest : List String) (resp : GoMap) (u1 u2 : String)
    (hf : st.lpassInitialized = true)
    (h1 : w.exec st.trace ⟨"", ["show", "--url", entry]⟩ = RunResult.success u1)
    (h2 : w.exec (st.trace ++ [⟨"", ["show", "--url", entry]⟩])
      ⟨"", ["show", "--user", entry]⟩ = RunResult.success u2) :
    listLoop w st (entry :: rest) resp =
      listLoop w
        ⟨true, st.trace ++ [⟨"", ["show", "--url", entry]⟩, ⟨"", ["show", "--user", entry]⟩]⟩
        rest (mapInsert resp (trimRightNewlines u1) (trimRightNewlines u2)) ∧
    (∀ k v1 v2 x, mapInsert (mapInsert resp k v1) k v2 x = mapInsert resp k v2 x) ∧
    mapInsert resp (trimRightNewlines u1) (trimRightNewlines u2) (trimRightNewlines u1) =
      some (trimRightNewlines u2) := by
  refine ⟨?_, ?_, ?_⟩
  · have hh1 := runLP_flag_success w st "" u1 ["show", "--url", entry] hf h1
    have hh2 := runLP_flag_success w ⟨true, st.trace ++ [⟨"", ["show", "--url", entry]⟩]⟩ "" u2
      ["show", "--user", entry] rfl h2
    rw [listLoop_cons_ok w st ⟨true, st.trace ++ [⟨"", ["show", "--url", entry]⟩]⟩
      ⟨true, (st.trace ++ [⟨"", ["show", "--url", entry]⟩]) ++ [⟨"", ["show", "--user", entry]⟩]⟩
      entry (trimRightNewlines u1) (trimRightNewlines u2) rest resp hh1 hh2]
    simp
  · intro k v1 v2 x
    by_cases hx : x = k <;> simp [mapInsert, hx]
  · simp [mapInsert]

theorem C8_witness :
    wListSame.exec (⟨true, []⟩ : PState).trace ⟨"", ["show", "--url", "id1"]⟩ =
      RunResult.success "https://same.com\n" ∧
    listLoop wListSame ⟨true, []⟩ ["id1", "id2"] mapEmpty =
      listLoop wListSame
        ⟨true, [⟨"", ["show", "--url", "id1"]⟩, ⟨"", ["show", "--user", "id1"]⟩]⟩
        ["id2"] (mapInsert mapEmpty "https://same.com" "alice") ∧
    ((LastPass.List wListSame ⟨true, []⟩).1.1.getD mapEmpty) "https://same.com" = some "bob" := by
  refine ⟨rfl, ?_, rfl⟩
  exact (C8_list_inserts_url_username wListSame ⟨true, []⟩ "id1" ["id2"] mapEmpty
    "https://same.com\n" "alice\n" rfl rfl rfl).1

theorem splitOnChar_ne_nil (sep : Char) (l : List Char) : splitOnChar sep l ≠ [] := by
  cases l with
  | nil => simp [splitOnChar]
  | cons c cs =>
    rw [splitOnChar]
    by_cases hc : c = sep
    · simp [hc]
    · rw [if_neg hc]
      cases h : splitOnChar sep cs <;> simp

theorem splitOnChar_length (sep : Char) :
    ∀ l : List Char, (splitOnChar sep l).length = l.count sep + 1 := by
  intro l
  induction l with
  | nil => simp [splitOnChar]
  | cons c cs ih =>
    rw [splitOnChar]
    by_cases hc : c = sep
    · rw [if_pos hc]
      simp [List.count_cons, hc, ih]
    · rw [if_neg hc]
      obtain ⟨g, gs, hg⟩ := List.exists_cons_of_ne_nil (splitOnChar_ne_nil sep cs)
      rw [hg]
      have : (g :: gs).length = cs.count sep + 1 := hg ▸ ih
      simp only [List.length_cons] at this ⊢
      simp [List.count_cons, hc, this]

/-- Claim C10: when the ls invocation succeeds with empty output, List
does not stop with an empty mapping: splitting the empty output yields
the single empty identifier, so the loop issues a show url invocation
with the empty string as entry identifier; in general the number of
per-entry iterations equals the number of newline-separated segments
of the output, empty segments included. -/
theorem C10_empty_listing (w : World) (st : PState)
    (hf : st.lpassInitialized = true)
    (h : w.exec st.trace ⟨"", ["ls", "--format", "%ai", LASTPASS_FOLDER]⟩ =
      RunResult.success "") :
    goSplitNewline "" = [""] ∧
    LastPass.List w st =
      listLoop w ⟨true, st.trace ++ [⟨"", ["ls", "--format", "%ai", LASTPASS_FOLDER]⟩]⟩
        [""] mapEmpty ∧
    (∃ restT, (LastPass.List w st).2.trace =
      st.trace ++ [⟨"", ["ls", "--format", "%ai", LASTPASS_FOLDER]⟩,
        ⟨"", ["show", "--url", ""]⟩] ++ restT) ∧
    (∀ out : String, (goSplitNewline out).length = out.data.count '\n' + 1) := by
  have hls := runLP_flag_success w st "" "" ["ls", "--format", "%ai", LASTPASS_FOLDER] hf h
  have hList : LastPass.List w st =
      listLoop w ⟨true, st.trace ++ [⟨"", ["ls", "--format", "%ai", LASTPASS_FOLDER]⟩]⟩
        [""] mapEmpty :=
    List_ls_ok w st ⟨true, st.trace ++ [⟨"", ["ls", "--format", "%ai", LASTPASS_FOLDER]⟩]⟩
      (trimRightNewlines "") hls
  refine ⟨rfl, hList, ?_, ?_⟩
  · rw [hList]
    cases hw1 : w.exec (st.trace ++ [⟨"", ["ls", "--format", "%ai", LASTPASS_FOLDER]⟩])
        ⟨"", ["show", "--url", ""]⟩ with
    | failure e s =>
      have hrun : LastPass.runLastPass w
          (PState.mk true (st.trace ++
            [Invocation.mk "" ["ls", "--format", "%ai", LASTPASS_FOLDER]]))
          "" ["show", "--url", ""] =
          (("", some (e ++ ": " ++ s)),
           PState.mk true ((st.trace ++
             [Invocation.mk "" ["ls", "--format", "%ai", LASTPASS_FOLDER]]) ++
             [Invocation.mk "" ["show", "--url", ""]])) :=
        runLP_flag_failure w
          (PState.mk true (st.trace ++
            [Invocation.mk "" ["ls", "--format", "%ai", LASTPASS_FOLDER]]))
          "" e s ["show", "--url", ""] rfl hw1
      have hstep := listLoop_cons_urlerr w
        (PState.mk true (st.trace ++
          [Invocation.mk "" ["ls", "--format", "%ai", LASTPASS_FOLDER]]))
        (PState.mk true ((st.trace ++
          [Invocation.mk "" ["ls", "--format", "%ai", LASTPASS_FOLDER]]) ++
          [Invocation.mk "" ["show", "--url", ""]]))
        "" "" (e ++ ": " ++ s) [] mapEmpty hrun
      exact ⟨[], by rw [hstep]; simp⟩
    | success u1 =>
      have hrun1 : LastPass.runLastPass w
          (PState.mk true (st.trace ++
            [Invocation.mk "" ["ls", "--format", "%ai", LASTPASS_FOLDER]]))
          "" ["show", "--url", ""] =
          ((trimRightNewlines u1, none),
           PState.mk true ((st.trace ++
             [Invocation.mk "" ["ls", "--format", "%ai", LASTPASS_FOLDER]]) ++
             [Invocation.mk "" ["show", "--url", ""]])) :=
        runLP_flag_success w
          (PState.mk true (st.trace ++
            [Invocation.mk "" ["ls", "--format", "%ai", LASTPASS_FOLDER]]))
          "" u1 ["show", "--url", ""] rfl hw1
      cases hw2 : w.exec ((st.trace ++ [⟨"", ["ls", "--format", "%ai", LASTPASS_FOLDER]⟩]) ++
          [⟨"", ["show", "--url", ""]⟩]) ⟨"", ["show", "--user", ""]⟩ with
      | failure e s =>
        have hrun2 : LastPass.runLastPass w
            (PState.mk true ((st.trace ++
              [Invocation.mk "" ["ls", "--format", "%ai", LASTPASS_FOLDER]]) ++
              [Invocation.mk "" ["show", "--url", ""]]))
            "" ["show", "--user", ""] =
            (("", some (e ++ ": " ++ s)),
             PState.mk true (((st.trace ++
               [Invocation.mk "" ["ls", "--format", "%ai", LASTPASS_FOLDER]]) ++
               [Invocation.mk "" ["show", "--url", ""]]) ++
               [Invocation.mk "" ["show", "--user", ""]])) :=
          runLP_flag_failure w
            (PState.mk true ((st.trace ++
              [Invocation.mk "" ["ls", "--format", "%ai", LASTPASS_FOLDER]]) ++
              [Invocation.mk "" ["show", "--url", ""]]))
            "" e s ["show", "--user", ""] rfl hw2
        have hstep := listLoop_cons_usererr w
          (PState.mk true (st.trace ++
            [Invocation.mk "" ["ls", "--format", "%ai", LASTPASS_FOLDER]]))
          (PState.mk true ((st.trace ++
            [Invocation.mk "" ["ls", "--format", "%ai", LASTPASS_FOLDER]]) ++
            [Invocation.mk "" ["show", "--url", ""]]))
          (PState.mk true (((st.trace ++
            [Invocation.mk "" ["ls", "--format", "%ai", LASTPASS_FOLDER]]) ++
            [Invocation.mk "" ["show", "--url", ""]]) ++
            [Invocation.mk "" ["show", "--user", ""]]))
          "" (trimRightNewlines u1) "" (e ++ ": " ++ s) [] mapEmpty hrun1 hrun2
        exact ⟨[⟨"", ["show", "--user", ""]⟩], by rw [hstep]; simp⟩
      | success u2 =>
        have hrun2 : LastPass.runLastPass w
            (PState.mk true ((st.trace ++
              [Invocation.mk "" ["ls", "--format", "%ai", LASTPASS_FOLDER]]) ++
              [Invocation.mk "" ["show", "--url", ""]]))
            "" ["show", "--user", ""] =
            ((trimRightNewlines u2, none),
             PState.mk true (((st.trace ++
               [Invocation.mk "" ["ls", "--format", "%ai", LASTPASS_FOLDER]]) ++
               [Invocation.mk "" ["show", "--url", ""]]) ++
               [Invocation.mk "" ["show", "--user", ""]])) :=
          runLP_flag_success w
            (PState.mk true ((st.trace ++
              [Invocation.mk "" ["ls", "--format", "%ai", LASTPASS_FOLDER]]) ++
              [Invocation.mk "" ["show", "--url", ""]]))
            "" u2 ["show", "--user", ""] rfl hw2
        have hstep := listLoop_cons_ok w
          (PState.mk true (st.trace ++
            [Invocation.mk "" ["ls", "--format", "%ai", LASTPASS_FOLDER]]))
          (PState.mk true ((st.trace ++
            [Invocation.mk "" ["ls", "--format", "%ai", LASTPASS_FOLDER]]) ++
            [Invocation.mk "" ["show", "--url", ""]]))
          (PState.mk true (((st.trace ++
            [Invocation.mk "" ["ls", "--format", "%ai", LASTPASS_FOLDER]]) ++
            [Invocation.mk "" ["show", "--url", ""]]) ++
            [Invocation.mk "" ["show", "--user", ""]]))
          "" (trimRightNewlines u1) (trimRightNewlines u2) [] mapEmpty hrun1 hrun2
        exact ⟨[⟨"", ["show", "--user", ""]⟩], by rw [hstep]; simp [listLoop]⟩
  · intro out
    simp [goSplitNewline, splitOnChar_length]

theorem C10_witness :
    (⟨true, []⟩ : PState).lpassInitialized = true ∧
    wEmptyLs.exec (⟨true, []⟩ : PState).trace
      ⟨"", ["ls", "--format", "%ai", LASTPASS_FOLDER]⟩ = RunResult.success "" ∧
    (∃ restT, (LastPass.List wEmptyLs ⟨true, []⟩).2.trace =
      [⟨"", ["ls", "--format", "%ai", LASTPASS_FOLDER]⟩,
       ⟨"", ["show", "--url", ""]⟩] ++ restT) := by
  refine ⟨rfl, rfl, ?_⟩
  exact (C10_empty_listing wEmptyLs ⟨true, []⟩ rfl rfl).2.2.1
